import Mathlib

/-! Verification of the rodio mixing and playback-scheduling core: a shallow
embedding of `mixer.rs` (the `Mixer` input controller and the `MixerSource`
output sequence) and `engine.rs` (the background scheduling loop), together
with theorems about source promotion, the summation pass, termination,
format reporting and the engine's command handling and sleep computation. -/

set_option maxHeartbeats 1000000

/-- The `Sample` trait bound used by the mixer: a numeric value type with a
zero element (`zero_value`) and a saturating addition (`saturating_add`). -/
class Sample (S : Type) where
  zero_value : S
  saturating_add : S → S → S

/-- Concrete `Sample` instance for the tests' `i16` samples, embedded in
`Int` with clamping at the `i16` bounds (saturating, never wrapping). -/
instance : Sample Int where
  zero_value := 0
  saturating_add a b := max (-32768) (min 32767 (a + b))

/-- A boxed `dyn Source` held by the mixer (always the output of the uniform
source adaptor): modelled as the channel count it reports plus the list of
samples its iterator will yield. -/
structure BoxSource (S : Type) where
  channels : Nat
  samples : List S
deriving DecidableEq

/-- `Iterator::next` on a boxed source: yields the head of the remaining
sample list, or `none` at end-of-sequence. -/
def BoxSource.next (s : BoxSource S) : Option S × BoxSource S :=
  match s.samples with
  | [] => (none, s)
  | x :: rest => (some x, { s with samples := rest })

/-- A source as handed to `Mixer::add`, before adaptation: its native
channel count, native sample rate and sample list. -/
structure NativeSource (S : Type) where
  channels : Nat
  sample_rate : Nat
  samples : List S
deriving DecidableEq

/-- Modelled from the spec: one frame of the uniform source adaptor's channel
conversion (the adaptor itself, `UniformSourceIterator`, is not among the
provided sources). A frame is truncated to the target width; a narrower frame
is padded by repeating its last sample, so a mono frame is duplicated across
all output channels as the spec's examples require. -/
def frameTo (toC : Nat) : List S → List S
  | [] => []
  | x :: rest =>
    (x :: rest).take toC ++ List.replicate (toC - (x :: rest).length) ((x :: rest).getLastD x)

/-- Modelled from the spec: channel conversion of a whole sample list, frame
by frame (frames of the native width become frames of the target width),
written with explicit fuel so that it is structurally recursive; the list
length bounds the number of frames whenever the native width is positive. -/
def convertChannelsAux (fromC toC : Nat) : Nat → List S → List S
  | 0, _ => []
  | _, [] => []
  | Nat.succ fuel, x :: rest =>
    frameTo toC ((x :: rest).take fromC) ++
      convertChannelsAux fromC toC fuel ((x :: rest).drop fromC)

/-- Modelled from the spec: channel conversion of a whole sample list (a
zero native width converts to nothing; in Rust it would panic). -/
def convertChannels (fromC toC : Nat) (xs : List S) : List S :=
  if fromC = 0 then [] else convertChannelsAux fromC toC xs.length xs

/-- Modelled from the spec: the uniform source adaptor normalizes any source
to the mixer's fixed channel count and sample rate, and reports the target
channel count as its own. Sample-rate conversion is not modelled (every
claim uses sources whose rate already matches the mixer's). -/
def uniformAdapt (native : NativeSource S) (channels sample_rate : Nat) : BoxSource S :=
  { channels := channels,
    samples := convertChannels native.channels channels native.samples }

/-- The input of the mixer (`Mixer<S>` in `mixer.rs`): the pending-source
queue and its companion flag, plus the fixed output format. -/
structure Mixer (S : Type) where
  has_pending : Bool
  pending_sources : List (BoxSource S)
  channels : Nat
  sample_rate : Nat
deriving DecidableEq

/-- `Mixer::add`: wrap the source through the uniform adaptor to the mixer's
fixed channel count and sample rate, push it onto the pending queue, and set
the has-pending flag. -/
def Mixer.add (m : Mixer S) (source : NativeSource S) : Mixer S :=
  let uniform_source := uniformAdapt source m.channels m.sample_rate
  { m with pending_sources := m.pending_sources ++ [uniform_source], has_pending := true }

/-- The output of the mixer (`MixerSource<S>` in `mixer.rs`). `input` is the
shared (`Arc`) mixer state; `still_pending` and `still_current` are the
temporary vectors used by `start_pending_sources` and
`sum_current_sources` (empty between calls). -/
structure MixerSource (S : Type) where
  current_sources : List (BoxSource S)
  input : Mixer S
  sample_count : Nat
  still_pending : List (BoxSource S)
  still_current : List (BoxSource S)
deriving DecidableEq

/-- `mixer(channels, sample_rate)`: builds the shared input state and the
output sequence. -/
def mixer (S : Type) [Sample S] (channels sample_rate : Nat) :
    Mixer S × MixerSource S :=
  let input : Mixer S :=
    { has_pending := false, pending_sources := [],
      channels := channels, sample_rate := sample_rate }
  let output : MixerSource S :=
    { current_sources := [], input := input, sample_count := 0,
      still_pending := [], still_current := [] }
  (input, output)

/-- `Mixer::add` performed through the output's shared `Arc` handle: the
caller thread mutates the same mixer state the output sequence reads. -/
def MixerSource.addPending (ms : MixerSource S) (source : NativeSource S) :
    MixerSource S :=
  { ms with input := ms.input.add source }

/-- One step of the drain loop in `MixerSource::start_pending_sources`: a
source that is in step (sample count divisible by its channel count) is
pushed onto `current_sources`, otherwise onto `still_pending`. -/
def promoteStep (n : Nat) (acc : List (BoxSource S) × List (BoxSource S))
    (source : BoxSource S) : List (BoxSource S) × List (BoxSource S) :=
  if n % source.channels == 0 then (acc.1 ++ [source], acc.2) else (acc.1, acc.2 ++ [source])

/-- `MixerSource::start_pending_sources`: drain the pending queue, promoting
in-step sources to `current_sources` and keeping the rest in
`still_pending`; swap the still-waiting subset back into the queue (leaving
the temporary empty) and recompute the has-pending flag. -/
def MixerSource.start_pending_sources (ms : MixerSource S) : MixerSource S :=
  let pending := ms.input.pending_sources
  let acc := pending.foldl (promoteStep ms.sample_count) (ms.current_sources, ms.still_pending)
  let new_pending := acc.2
  let has_pending := !new_pending.isEmpty
  { ms with
    current_sources := acc.1,
    still_pending := [],
    input := { ms.input with pending_sources := new_pending, has_pending := has_pending } }

/-- One step of the drain loop in `MixerSource::sum_current_sources`: a
source that produces a value is saturating-added into the running sum and
pushed onto `still_current`; an exhausted source is dropped. -/
def sumStep [Sample S] (acc : S × List (BoxSource S)) (source : BoxSource S) :
    S × List (BoxSource S) :=
  match source.next with
  | (some value, source') => (Sample.saturating_add acc.1 value, acc.2 ++ [source'])
  | (none, _) => acc

/-- `MixerSource::sum_current_sources`: starting from `Sample`'s zero value,
pull one value from every current source in order, retaining producers and
dropping exhausted sources; swap the survivors back into
`current_sources`. -/
def MixerSource.sum_current_sources [Sample S] (ms : MixerSource S) :
    S × MixerSource S :=
  let acc := ms.current_sources.foldl sumStep (Sample.zero_value, ms.still_current)
  (acc.1, { ms with current_sources := acc.2, still_current := [] })

/-- `Iterator::next` for `MixerSource`: run the promotion pass if the flag is
set, increment the sample counter, run the summation pass, and end the
sequence when the active set is empty afterwards. -/
def MixerSource.next [Sample S] (ms : MixerSource S) : Option S × MixerSource S :=
  let ms1 := if ms.input.has_pending then ms.start_pending_sources else ms
  let ms2 := { ms1 with sample_count := ms1.sample_count + 1 }
  let r := ms2.sum_current_sources
  if r.2.current_sources.isEmpty then (none, r.2) else (some r.1, r.2)

/-- The seek error type: the mixer only ever produces the `NotSupported`
variant, tagged with the underlying source's type name. -/
inductive SeekError where
  | NotSupported (underlying_source : String)
deriving DecidableEq

/-- `Source::current_frame_len` for `MixerSource`: always unknown. -/
def MixerSource.current_frame_len (_ : MixerSource S) : Option Nat := none

/-- `Source::channels` for `MixerSource`: the mixer's fixed channel count. -/
def MixerSource.channels (ms : MixerSource S) : Nat := ms.input.channels

/-- `Source::sample_rate` for `MixerSource`: the mixer's fixed sample rate. -/
def MixerSource.sample_rate (ms : MixerSource S) : Nat := ms.input.sample_rate

/-- `Source::total_duration` for `MixerSource`: always unknown. -/
def MixerSource.total_duration (_ : MixerSource S) : Option Nat := none

/-- The value of `std::any::type_name::<Self>()` used in the seek error. -/
def mixerTypeName : String :=
  "MixerSource"

/-- `Source::try_seek` for `MixerSource` (the seek target is a duration,
modelled in nanoseconds): unconditionally returns the not-supported error
and leaves the state untouched. -/
def MixerSource.try_seek (ms : MixerSource S) (_ : Nat) :
    Except SeekError Unit × MixerSource S :=
  (Except.error (SeekError.NotSupported mixerTypeName), ms)

/-- An operation performed on the mixer's output during its life: one pull of
the output sequence, or an `add` arriving through the shared input. -/
inductive MixerOp (S : Type) where
  | pull
  | add (source : NativeSource S)
deriving DecidableEq

/-- Run a list of operations against the output sequence, collecting the
result of every pull in order. -/
def runMixer [Sample S] : MixerSource S → List (MixerOp S) → MixerSource S × List (Option S)
  | ms, [] => (ms, [])
  | ms, MixerOp.pull :: rest =>
    let r := ms.next
    let t := runMixer r.2 rest
    (t.1, r.1 :: t.2)
  | ms, MixerOp.add source :: rest => runMixer (ms.addPending source) rest

/-- The number of pulls in an operation list. -/
def countPulls (ops : List (MixerOp S)) : Nat :=
  ops.countP (fun o => match o with | MixerOp.pull => true | _ => false)

/-- Advancing a boxed source by one `next` call: `none` when it was
exhausted (the source is dropped), otherwise the source with its head
consumed. -/
def advanceSrc (s : BoxSource S) : Option (BoxSource S) :=
  match s.samples with
  | [] => none
  | _ :: rest => some { s with samples := rest }

theorem promoteStep_foldl (n : Nat) (xs cur sp : List (BoxSource S)) :
    xs.foldl (promoteStep n) (cur, sp) =
      (cur ++ xs.filter (fun s => n % s.channels == 0),
       sp ++ xs.filter (fun s => !(n % s.channels == 0))) := by
  induction xs generalizing cur sp with
  | nil => simp
  | cons x xs ih =>
    by_cases h : n % x.channels == 0 <;>
      simp [promoteStep, h, ih, List.filter_cons, List.append_assoc]

theorem sumStep_foldl [Sample S] (xs : List (BoxSource S)) (s : S)
    (l : List (BoxSource S)) :
    xs.foldl sumStep (s, l) =
      (List.foldl Sample.saturating_add s (xs.filterMap (fun src => src.samples.head?)),
       l ++ xs.filterMap advanceSrc) := by
  induction xs generalizing s l with
  | nil => simp
  | cons x xs ih =>
    cases hx : x.samples with
    | nil => simp [sumStep, BoxSource.next, hx, advanceSrc, ih]
    | cons v rest =>
      simp [sumStep, BoxSource.next, hx, advanceSrc, ih, List.append_assoc]

theorem sum_current_sources_input [Sample S] (ms : MixerSource S) :
    (ms.sum_current_sources).2.input = ms.input := rfl

theorem start_pending_sources_sample_count (ms : MixerSource S) :
    ms.start_pending_sources.sample_count = ms.sample_count := rfl

theorem next_sample_count [Sample S] (ms : MixerSource S) :
    (ms.next).2.sample_count = ms.sample_count + 1 := by
  by_cases h : ms.input.has_pending <;>
    simp only [MixerSource.next, h, Bool.false_eq_true, if_true, if_false] <;>
    split <;> rfl

theorem next_input [Sample S] (ms : MixerSource S) :
    (ms.next).2.input =
      (if ms.input.has_pending then ms.start_pending_sources else ms).input := by
  by_cases h : ms.input.has_pending <;>
    simp only [MixerSource.next, h, Bool.false_eq_true, if_true, if_false] <;>
    split <;> rfl

theorem start_pending_spec (ms : MixerSource S) (hsp : ms.still_pending = []) :
    ms.start_pending_sources =
      { ms with
        current_sources := ms.current_sources ++
          ms.input.pending_sources.filter (fun s => ms.sample_count % s.channels == 0),
        still_pending := [],
        input := { ms.input with
          pending_sources :=
            ms.input.pending_sources.filter (fun s => !(ms.sample_count % s.channels == 0)),
          has_pending :=
            !(ms.input.pending_sources.filter
                (fun s => !(ms.sample_count % s.channels == 0))).isEmpty } } := by
  unfold MixerSource.start_pending_sources
  simp only [promoteStep_foldl, hsp, List.nil_append]

theorem next_format [Sample S] (ms : MixerSource S) :
    (ms.next).2.input.channels = ms.input.channels ∧
    (ms.next).2.input.sample_rate = ms.input.sample_rate := by
  rw [next_input]
  split <;> exact ⟨rfl, rfl⟩

theorem runMixer_sample_count [Sample S] (ops : List (MixerOp S)) (ms : MixerSource S) :
    (runMixer ms ops).1.sample_count = ms.sample_count + countPulls ops ∧
    (runMixer ms ops).2.length = countPulls ops := by
  induction ops generalizing ms with
  | nil => simp [runMixer, countPulls]
  | cons op rest ih =>
    cases op with
    | pull =>
      have h := ih (ms.next).2
      have hn := next_sample_count ms
      simp only [runMixer, countPulls, List.countP_cons, List.length_cons] at h ⊢
      refine ⟨?_, ?_⟩
      · rw [h.1, hn]; simp; omega
      · rw [h.2]; simp
    | add source =>
      have h := ih (ms.addPending source)
      simp only [runMixer, countPulls, List.countP_cons] at h ⊢
      refine ⟨?_, ?_⟩
      · rw [h.1]; simp [MixerSource.addPending]
      · rw [h.2]; simp

theorem runMixer_format [Sample S] (ops : List (MixerOp S)) (ms : MixerSource S) :
    (runMixer ms ops).1.input.channels = ms.input.channels ∧
    (runMixer ms ops).1.input.sample_rate = ms.input.sample_rate := by
  induction ops generalizing ms with
  | nil => exact ⟨rfl, rfl⟩
  | cons op rest ih =>
    cases op with
    | pull =>
      have h := ih (ms.next).2
      have hn := next_format ms
      simp only [runMixer]
      exact ⟨h.1.trans hn.1, h.2.trans hn.2⟩
    | add source =>
      have h := ih (ms.addPending source)
      simp only [runMixer]
      exact ⟨h.1, h.2⟩

theorem filterMap_id_length_of_ne_none (l : List (Option α))
    (h : ∀ o ∈ l, o ≠ none) : (l.filterMap id).length = l.length := by
  induction l with
  | nil => rfl
  | cons o rest ih =>
    cases o with
    | none => exact absurd rfl (h none (List.mem_cons_self _ _))
    | some v =>
      simp only [List.filterMap_cons, id, List.length_cons]
      rw [ih (fun o ho => h o (List.mem_cons_of_mem _ ho))]

/-- Claim C1, as stated, is false: the promotion pass tests the sample
counter against the channel count reported by the *adapted* source, which is
the mixer's configured channel count, not the source's native one. Concrete
refutation: in a mono (C = 1) mixer, a native stereo source (native channel
count 2) is added after one pull, so the counter is 1 and 1 is not a
multiple of 2 — yet the very next pull promotes it into the active set
(the pending queue holds a source reporting 1 channel, the queue is empty
afterwards, and the source's sample contributes: output 15 = 10 + 5). -/
theorem C1_counterexample :
    (let s0 := (mixer Int 1 44100).2
     let s1 := s0.addPending ⟨1, 44100, [10, 10]⟩
     let p1 := s1.next
     let s2 := p1.2.addPending ⟨2, 44100, [5, 6]⟩
     let p2 := s2.next
     p1.1 = some 10 ∧ s2.sample_count = 1 ∧ s2.sample_count % 2 ≠ 0
       ∧ s2.input.pending_sources.map BoxSource.channels = [1]
       ∧ p2.1 = some 15 ∧ p2.2.input.pending_sources = []) := by
  decide

/-- Claim C1 (amended): a pull's promotion pass moves a pending source into
the active set exactly when the sample-frame counter is a multiple of the
channel count the source itself reports — and since `Mixer::add` wraps every
source through the uniform adaptor, that reported channel count is the
mixer's configured channel count, not the source's native one. -/
theorem C1_promotion_uses_adapted_channels (ms : MixerSource S)
    (hsp : ms.still_pending = []) :
    ms.start_pending_sources =
      { ms with
        current_sources := ms.current_sources ++
          ms.input.pending_sources.filter (fun s => ms.sample_count % s.channels == 0),
        still_pending := [],
        input := { ms.input with
          pending_sources :=
            ms.input.pending_sources.filter (fun s => !(ms.sample_count % s.channels == 0)),
          has_pending :=
            !(ms.input.pending_sources.filter
                (fun s => !(ms.sample_count % s.channels == 0))).isEmpty } }
  ∧ ∀ (m : Mixer S) (native : NativeSource S),
      (m.add native).pending_sources
        = m.pending_sources ++ [uniformAdapt native m.channels m.sample_rate]
      ∧ (uniformAdapt native m.channels m.sample_rate).channels = m.channels :=
  ⟨start_pending_spec ms hsp, fun _ _ => ⟨rfl, rfl⟩⟩

theorem C1_witness :
    (⟨[], ⟨true, [⟨2, [5, 5]⟩, ⟨1, [9]⟩], 2, 44100⟩, 3, [], []⟩
        : MixerSource Int).still_pending = []
    ∧ (⟨[], ⟨true, [⟨2, [5, 5]⟩, ⟨1, [9]⟩], 2, 44100⟩, 3, [], []⟩
        : MixerSource Int).start_pending_sources
      = ⟨[⟨1, [9]⟩], ⟨true, [⟨2, [5, 5]⟩], 2, 44100⟩, 3, [], []⟩ :=
  ⟨rfl,
   ((C1_promotion_uses_adapted_channels
      (⟨[], ⟨true, [⟨2, [5, 5]⟩, ⟨1, [9]⟩], 2, 44100⟩, 3, [], []⟩
        : MixerSource Int) rfl).1).trans (by decide)⟩

/-- Claim C2, as stated, is false in its second half: a pull whose summation
pass leaves the active set empty does return end-of-sequence, but the
sequence can produce values again on later pulls. Concrete refutation in a
stereo mixer: the second pull returns `none` with the active set empty while
a pending source awaits phase alignment, and the third pull promotes that
source and returns `some 5`. -/
theorem C2_counterexample :
    (let s0 := (mixer Int 2 44100).2
     let p1 := s0.next
     let s1 := p1.2.addPending ⟨1, 44100, [5]⟩
     let p2 := s1.next
     let p3 := p2.2.next
     p1.1 = none ∧ p2.1 = none ∧ p2.2.current_sources = []
       ∧ p2.2.input.pending_sources ≠ [] ∧ p3.1 = some 5) := by
  decide

/-- Claim C2 (amended): a pull returns end-of-sequence exactly when the
active set is empty after its summation pass — but this does not end the
sequence for good: a subsequent pull may promote pending sources and produce
values again. -/
theorem C2_end_iff_active_empty [Sample S] (ms : MixerSource S) :
    (ms.next).1 = none ↔ (ms.next).2.current_sources = [] := by
  by_cases h : ms.input.has_pending <;>
    simp only [MixerSource.next, h, Bool.false_eq_true, if_true, if_false] <;>
    split <;> simp_all [List.isEmpty_iff]

/-- Claim C3: the summation pass starts from the `Sample` zero value, pulls
one value from each active source in order, saturating-adds produced values
into the running sum, retains producers (advanced by one sample, in order)
for the next pull, and drops exhausted sources from the state entirely. -/
theorem C3_summation_pass [Sample S] (ms : MixerSource S)
    (hsc : ms.still_current = []) :
    ms.sum_current_sources =
      (List.foldl Sample.saturating_add Sample.zero_value
         (ms.current_sources.filterMap (fun src => src.samples.head?)),
       { ms with current_sources := ms.current_sources.filterMap advanceSrc,
                 still_current := [] }) := by
  unfold MixerSource.sum_current_sources
  simp only [sumStep_foldl, hsc, List.nil_append]

theorem C3_witness :
    (⟨[⟨1, [3]⟩, ⟨1, ([] : List Int)⟩, ⟨2, [4, 5]⟩], ⟨false, [], 1, 44100⟩,
        7, [], []⟩ : MixerSource Int).still_current = []
    ∧ (⟨[⟨1, [3]⟩, ⟨1, ([] : List Int)⟩, ⟨2, [4, 5]⟩], ⟨false, [], 1, 44100⟩,
        7, [], []⟩ : MixerSource Int).sum_current_sources
      = (7, ⟨[⟨1, []⟩, ⟨2, [5]⟩], ⟨false, [], 1, 44100⟩, 7, [], []⟩) :=
  ⟨rfl,
   (C3_summation_pass
      (⟨[⟨1, [3]⟩, ⟨1, ([] : List Int)⟩, ⟨2, [4, 5]⟩], ⟨false, [], 1, 44100⟩,
        7, [], []⟩ : MixerSource Int) rfl).trans (by decide)⟩

/-- Claim C4, as stated, is false: the counter is incremented on every pull,
including a pull that returns end-of-sequence, so it can exceed the number
of output samples produced. Concrete refutation: one pull of a fresh mixer
with no sources returns `none` (zero samples produced) yet leaves the
counter at 1. -/
theorem C4_counterexample :
    (let p := (mixer Int 1 44100).2.next
     p.1 = none ∧ p.2.sample_count = 1) := by
  decide

theorem promote_foldl_congr (m n : Nat) (xs : List (BoxSource S))
    (h : ∀ s ∈ xs, (m % s.channels == 0) = (n % s.channels == 0)) :
    ∀ acc : List (BoxSource S) × List (BoxSource S),
      xs.foldl (promoteStep m) acc = xs.foldl (promoteStep n) acc := by
  induction xs with
  | nil => intro acc; rfl
  | cons x xs ih =>
    intro acc
    simp only [List.foldl_cons]
    have hx : promoteStep m acc x = promoteStep n acc x := by
      unfold promoteStep
      rw [h x (List.mem_cons_self _ _)]
    rw [hx]
    exact ih (fun s hs => h s (List.mem_cons_of_mem _ hs)) _

theorem start_pending_counter_congr (ms : MixerSource S) (n : Nat)
    (h : ∀ s ∈ ms.input.pending_sources,
      (ms.sample_count % s.channels == 0) = (n % s.channels == 0)) :
    (({ms with sample_count := n} : MixerSource S)).start_pending_sources
      = {ms.start_pending_sources with sample_count := n} := by
  simp only [MixerSource.start_pending_sources]
  rw [promote_foldl_congr n ms.sample_count ms.input.pending_sources
      (fun s hs => (h s hs).symm) (ms.current_sources, ms.still_pending)]

theorem sum_current_sources_mk [Sample S] (cs : List (BoxSource S)) (inp : Mixer S)
    (k : Nat) (sp sc : List (BoxSource S)) :
    (MixerSource.mk cs inp k sp sc).sum_current_sources
      = ((cs.foldl sumStep (Sample.zero_value, sc)).1,
         MixerSource.mk (cs.foldl sumStep (Sample.zero_value, sc)).2 inp k sp []) :=
  rfl

theorem next_counter_only_phase [Sample S] (ms : MixerSource S) (n : Nat)
    (h : ∀ s ∈ ms.input.pending_sources,
      (ms.sample_count % s.channels == 0) = (n % s.channels == 0)) :
    (({ms with sample_count := n} : MixerSource S).next).1 = (ms.next).1
  ∧ (({ms with sample_count := n} : MixerSource S).next).2
      = {(ms.next).2 with sample_count := n + 1} := by
  by_cases hp : ms.input.has_pending
  · simp only [MixerSource.next, hp, if_true]
    rw [start_pending_counter_congr ms n h]
    simp only [sum_current_sources_mk]
    split <;> exact ⟨rfl, rfl⟩
  · simp only [MixerSource.next, hp, Bool.false_eq_true, if_false]
    simp only [sum_current_sources_mk]
    split <;> exact ⟨rfl, rfl⟩

/-- Claim C4 (amended): the sample-frame counter equals the number of pulls
made so far (initial count plus exactly one per pull, never reset, hence
monotonically increasing); the number of samples produced is bounded by the
number of pulls and equals it as long as no pull has returned
end-of-sequence. The counter is used only for phase-alignment decisions:
replacing it by any value that makes the same alignment decisions for the
pending sources leaves the pull's output and its effect on every other
state component unchanged (the stored counter itself just becomes that
value plus one). -/
theorem C4_sample_count_counts_pulls [Sample S] (ms : MixerSource S)
    (ops : List (MixerOp S)) :
    (runMixer ms ops).1.sample_count = ms.sample_count + countPulls ops
  ∧ (runMixer ms ops).2.length = countPulls ops
  ∧ ((∀ o ∈ (runMixer ms ops).2, o ≠ none) →
      ((runMixer ms ops).2.filterMap id).length = countPulls ops)
  ∧ (∀ n, (∀ s ∈ ms.input.pending_sources,
        (ms.sample_count % s.channels == 0) = (n % s.channels == 0)) →
      (({ms with sample_count := n} : MixerSource S).next).1 = (ms.next).1
      ∧ (({ms with sample_count := n} : MixerSource S).next).2
          = {(ms.next).2 with sample_count := n + 1}) :=
  ⟨(runMixer_sample_count ops ms).1, (runMixer_sample_count ops ms).2,
   fun h => (filterMap_id_length_of_ne_none _ h).trans (runMixer_sample_count ops ms).2,
   fun n hn => next_counter_only_phase ms n hn⟩

theorem C4_witness :
    (runMixer ((mixer Int 1 44100).2)
        [MixerOp.add ⟨1, 44100, [10, 10]⟩, MixerOp.pull, MixerOp.pull]).1.sample_count
      = (mixer Int 1 44100).2.sample_count
          + countPulls [MixerOp.add (⟨1, 44100, [10, 10]⟩ : NativeSource Int),
                        MixerOp.pull, MixerOp.pull]
    ∧ ((runMixer ((mixer Int 1 44100).2)
          [MixerOp.add ⟨1, 44100, [10, 10]⟩, MixerOp.pull, MixerOp.pull]).2.filterMap id).length
      = countPulls [MixerOp.add (⟨1, 44100, [10, 10]⟩ : NativeSource Int),
                    MixerOp.pull, MixerOp.pull]
    ∧ (({(⟨[⟨2, [1, 2]⟩], ⟨true, [⟨2, [7, 7]⟩], 2, 44100⟩, 4, [], []⟩
          : MixerSource Int) with sample_count := 6} : MixerSource Int).next).1
      = ((⟨[⟨2, [1, 2]⟩], ⟨true, [⟨2, [7, 7]⟩], 2, 44100⟩, 4, [], []⟩
          : MixerSource Int).next).1
    ∧ (({(⟨[⟨2, [1, 2]⟩], ⟨true, [⟨2, [7, 7]⟩], 2, 44100⟩, 4, [], []⟩
          : MixerSource Int) with sample_count := 6} : MixerSource Int).next).2
      = {((⟨[⟨2, [1, 2]⟩], ⟨true, [⟨2, [7, 7]⟩], 2, 44100⟩, 4, [], []⟩
          : MixerSource Int).next).2 with sample_count := 6 + 1} :=
  ⟨(C4_sample_count_counts_pulls (mixer Int 1 44100).2
      [MixerOp.add ⟨1, 44100, [10, 10]⟩, MixerOp.pull, MixerOp.pull]).1,
   (C4_sample_count_counts_pulls (mixer Int 1 44100).2
      [MixerOp.add ⟨1, 44100, [10, 10]⟩, MixerOp.pull, MixerOp.pull]).2.2.1 (by decide),
   ((C4_sample_count_counts_pulls
      (⟨[⟨2, [1, 2]⟩], ⟨true, [⟨2, [7, 7]⟩], 2, 44100⟩, 4, [], []⟩ : MixerSource Int)
      []).2.2.2 6 (by decide)).1,
   ((C4_sample_count_counts_pulls
      (⟨[⟨2, [1, 2]⟩], ⟨true, [⟨2, [7, 7]⟩], 2, 44100⟩, 4, [], []⟩ : MixerSource Int)
      []).2.2.2 6 (by decide)).2⟩

/-- Claim C8: `try_seek` on the mixer's output sequence always fails with
the explicit not-supported error and never modifies any state, for every
target duration and in every state. -/
theorem C8_try_seek_always_errors (ms : MixerSource S) (pos : Nat) :
    ms.try_seek pos = (Except.error (SeekError.NotSupported mixerTypeName), ms) :=
  rfl

/-- Claim C9: for a mixer constructed with channel count C and sample rate
R, the output sequence reports C and R after any sequence of pulls and adds,
independent of the added sources' native formats, and its total-duration and
current-frame-length queries always return unknown. -/
theorem C9_format_passthrough (S : Type) [Sample S] (C R : Nat)
    (ops : List (MixerOp S)) :
    MixerSource.channels (runMixer (mixer S C R).2 ops).1 = C
  ∧ MixerSource.sample_rate (runMixer (mixer S C R).2 ops).1 = R
  ∧ MixerSource.current_frame_len (runMixer (mixer S C R).2 ops).1 = none
  ∧ MixerSource.total_duration (runMixer (mixer S C R).2 ops).1 = none :=
  ⟨(runMixer_format ops (mixer S C R).2).1,
   (runMixer_format ops (mixer S C R).2).2, rfl, rfl⟩

/-- Claim C10: when the sample-frame counter is 0 (as on the very first
pull), every pending source passes the alignment test — 0 is a multiple of
every positive channel count — so the promotion pass moves all of them into
the active set and empties the pending queue; in particular a first pull
with the has-pending flag set leaves nothing pending. (The positivity
hypothesis mirrors the Rust code, where a zero channel count would make the
`%` panic rather than promote.) -/
theorem C10_first_pull_promotes_all [Sample S] (ms : MixerSource S)
    (h0 : ms.sample_count = 0) (hsp : ms.still_pending = [])
    (hpos : ∀ s ∈ ms.input.pending_sources, 0 < s.channels) :
    ms.start_pending_sources.current_sources
        = ms.current_sources ++ ms.input.pending_sources
    ∧ ms.start_pending_sources.input.pending_sources = []
    ∧ (ms.input.has_pending = true → (ms.next).2.input.pending_sources = []) := by
  have hf1 : ms.input.pending_sources.filter
      (fun s => ms.sample_count % s.channels == 0) = ms.input.pending_sources := by
    apply List.filter_eq_self.mpr
    intro a _
    simp [h0]
  have hf2 : ms.input.pending_sources.filter
      (fun s => !(ms.sample_count % s.channels == 0)) = [] := by
    rw [List.filter_eq_nil_iff]
    intro a _
    simp [h0]
  have hs := start_pending_spec ms hsp
  refine ⟨?_, ?_, ?_⟩
  · rw [hs]; simp [hf1]
  · rw [hs]; simp [hf2]
  · intro hp
    rw [next_input, if_pos hp, hs]
    simp [hf2]

theorem C10_witness :
    (⟨[], ⟨true, [⟨2, [5, 5]⟩, ⟨3, [1, 2, 3]⟩], 2, 44100⟩, 0, [], []⟩
        : MixerSource Int).sample_count = 0
    ∧ (⟨[], ⟨true, [⟨2, [5, 5]⟩, ⟨3, [1, 2, 3]⟩], 2, 44100⟩, 0, [], []⟩
        : MixerSource Int).start_pending_sources.current_sources
          = [] ++ [⟨2, [5, 5]⟩, ⟨3, [1, 2, 3]⟩]
    ∧ (⟨[], ⟨true, [⟨2, [5, 5]⟩, ⟨3, [1, 2, 3]⟩], 2, 44100⟩, 0, [], []⟩
        : MixerSource Int).start_pending_sources.input.pending_sources = []
    ∧ ((⟨[], ⟨true, [⟨2, [5, 5]⟩, ⟨3, [1, 2, 3]⟩], 2, 44100⟩, 0, [], []⟩
        : MixerSource Int).next).2.input.pending_sources = [] :=
  ⟨rfl,
   (C10_first_pull_promotes_all
     (⟨[], ⟨true, [⟨2, [5, 5]⟩, ⟨3, [1, 2, 3]⟩], 2, 44100⟩, 0, [], []⟩
        : MixerSource Int) rfl rfl (by decide)).1,
   (C10_first_pull_promotes_all
     (⟨[], ⟨true, [⟨2, [5, 5]⟩, ⟨3, [1, 2, 3]⟩], 2, 44100⟩, 0, [], []⟩
        : MixerSource Int) rfl rfl (by decide)).2.1,
   (C10_first_pull_promotes_all
     (⟨[], ⟨true, [⟨2, [5, 5]⟩, ⟨3, [1, 2, 3]⟩], 2, 44100⟩, 0, [], []⟩
        : MixerSource Int) rfl rfl (by decide)).2.2 rfl⟩

/-- Modelled from the spec: the decoder capability used by the engine — a
volume-set operation and a write/step operation that performs one
decode-and-output action and returns the duration (in nanoseconds) until
the decoder next needs attention. The samples written to the audio backend
are out of scope; the returned duration is carried as a field. -/
structure Decoder (V : Type) where
  volume : V
  write_dur : Nat
deriving DecidableEq

/-- The decoder's volume-set operation. -/
def Decoder.set_volume (d : Decoder V) (value : V) : Decoder V :=
  { d with volume := value }

/-- The decoder's write/step operation: returns the nanoseconds until the
decoder next needs attention. -/
def Decoder.write (d : Decoder V) : Nat := d.write_dur

/-- `Command` sent from the public API to the background thread. -/
inductive Command (V : Type) where
  | Play (id : Nat) (decoder : Decoder V)
  | Stop (id : Nat)
  | SetVolume (id : Nat) (volume : V)
deriving DecidableEq

/-- The `SetVolume` arm of the `background` match:
`sounds.iter_mut().find(...)` locates the first registry entry with the
given id and `set_volume` is applied to it; nothing happens when no entry
matches. -/
def setVolumeFirst (sounds : List (Nat × Decoder V)) (id : Nat) (volume : V) :
    List (Nat × Decoder V) :=
  match sounds with
  | [] => []
  | (i, d) :: rest =>
    if i = id then (i, d.set_volume volume) :: rest
    else (i, d) :: setVolumeFirst rest id volume

/-- One received command applied to the decoder registry, as in the match at
the top of `background`'s loop: `Play` pushes, `Stop` retains the entries
with a different id, `SetVolume` updates the first match. -/
def applyCommand (sounds : List (Nat × Decoder V)) :
    Command V → List (Nat × Decoder V)
  | Command.Play id decoder => sounds ++ [(id, decoder)]
  | Command.Stop id => sounds.filter (fun p => p.1 != id)
  | Command.SetVolume id volume => setVolumeFirst sounds id volume

/-- The non-blocking `try_recv` poll at the top of the loop: at most one
command is received and applied per iteration. -/
def pollCommand (sounds : List (Nat × Decoder V)) :
    Option (Command V) → List (Nat × Decoder V)
  | some command => applyCommand sounds command
  | none => sounds

/-- The `next_step_ns` computation of one `background` iteration: `t` maps
the index of each `precise_time_ns` call within the iteration to the time
it returns (call 0 initializes `next_step_ns` to now + 10 ms; call `i + 1`
is made right after the `i`-th decoder's write step). -/
def backgroundDeadline (t : Nat → Nat) (durs : List Nat) : Nat :=
  (durs.enum).foldl (fun acc p => min acc (t (p.1 + 1) + p.2)) (t 0 + 10000000)

/-- One iteration of the `background` loop: apply the polled command, step
every decoder, compute the wake deadline, and compute the sleep request —
skipped when the remaining time minus the 500000 ns safety margin is
negative, otherwise its whole-millisecond part, cast to `u32` as in
`thread::sleep_ms((sleep / 1000000) as u32)`. The `u64`-to-`i64` casts of
the Rust subtraction are modelled as exact integer arithmetic. Returns the
updated registry, the deadline, and the requested sleep in milliseconds
(`none` when the sleep is skipped). -/
def backgroundIter (t : Nat → Nat) (sounds : List (Nat × Decoder V))
    (cmd : Option (Command V)) : List (Nat × Decoder V) × Nat × Option Nat :=
  let sounds' := pollCommand sounds cmd
  let durs := sounds'.map (fun p => p.2.write)
  let next_step_ns := backgroundDeadline t durs
  let now := t (durs.length + 1)
  let sleep : Int := (next_step_ns : Int) - (now : Int) - 500000
  let slept := if 0 ≤ sleep then some ((sleep / 1000000).toNat % 4294967296) else none
  (sounds', next_step_ns, slept)

/-- A Rust `mpsc` channel, seen from the sender: the queued messages and
whether the receiving end is still alive. A send never blocks (the channel
is unbounded); it succeeds and enqueues while the receiver lives, and
returns an error once the receiver has been dropped. -/
structure Channel (C : Type) where
  queue : List C
  receiver_alive : Bool
deriving DecidableEq

/-- `Sender::send`. -/
def Channel.send (ch : Channel C) (command : C) : Except Unit (Channel C) :=
  if ch.receiver_alive then Except.ok { ch with queue := ch.queue ++ [command] }
  else Except.error ()

/-- The `Engine`: the lock-guarded sender and the monotone sound-id
counter. -/
structure Engine (V : Type) where
  commands : Channel (Command V)
  next_sound_id : Nat
deriving DecidableEq

/-- `Engine::new`: the result of spawning the background thread is ignored
(`let _ = Builder::new()...spawn(...)`); `spawn_ok` records whether the
spawn succeeded. On failure the closure that owns the receiving end is
dropped without ever running, so the channel's receiver is dead; on success
`background` loops forever and the receiver stays alive. -/
def Engine.new (V : Type) (spawn_ok : Bool) : Engine V :=
  { commands := { queue := [], receiver_alive := spawn_ok }, next_sound_id := 1 }

/-- Handle to a playing sound (its engine reference is passed explicitly). -/
structure Handle where
  id : Nat
deriving DecidableEq

/-- `Engine::play` (decoding is external, so the decoder is taken directly):
allocate the next sound id, send `Play(sound_id, decoder)` with
`.unwrap()` — a send error panics, modelled as `none` — and hand back the
`Handle`. -/
def Engine.play (e : Engine V) (decoder : Decoder V) :
    Option (Handle × Engine V) :=
  let sound_id := e.next_sound_id
  match e.commands.send (Command.Play sound_id decoder) with
  | Except.ok ch =>
    some (⟨sound_id⟩, { e with commands := ch, next_sound_id := e.next_sound_id + 1 })
  | Except.error _ => none

/-- `Handle::set_volume`: sends `SetVolume(id, value)` with `.unwrap()`. -/
def Handle.set_volume (h : Handle) (e : Engine V) (value : V) :
    Option (Engine V) :=
  match e.commands.send (Command.SetVolume h.id value) with
  | Except.ok ch => some { e with commands := ch }
  | Except.error _ => none

/-- `Handle::stop`: sends `Stop(id)` with `.unwrap()`, consuming the
handle. -/
def Handle.stop (h : Handle) (e : Engine V) : Option (Engine V) :=
  match e.commands.send (Command.Stop h.id) with
  | Except.ok ch => some { e with commands := ch }
  | Except.error _ => none

/-- Claim C5 is contradicted by the code: when the background thread fails
to spawn, the closure owning the receiving end is dropped, so every later
`send(...).unwrap()` fails and panics (modelled as `none`) — an error does
surface to the caller, while the claim (and `Engine::new`'s comment,
"better than a panic") says the sends silently succeed. No command is ever
consumed, but only because the sends themselves abort; on an engine whose
thread did spawn, the same `play` succeeds and enqueues the command. -/
theorem C5_spawn_failure_panics (V : Type) (decoder : Decoder V)
    (h : Handle) (value : V) :
    (Engine.new V false).play decoder = none
  ∧ h.set_volume (Engine.new V false) value = none
  ∧ h.stop (Engine.new V false) = none
  ∧ (Engine.new V true).play decoder
      = some (⟨1⟩,
          { commands := { queue := [Command.Play 1 decoder], receiver_alive := true },
            next_sound_id := 2 }) :=
  ⟨rfl, rfl, rfl, rfl⟩

theorem setVolumeFirst_no_match (sounds : List (Nat × Decoder V)) (id : Nat)
    (volume : V) (h : ∀ p ∈ sounds, p.1 ≠ id) :
    setVolumeFirst sounds id volume = sounds := by
  induction sounds with
  | nil => rfl
  | cons q rest ih =>
    obtain ⟨i, d⟩ := q
    simp only [setVolumeFirst]
    rw [if_neg (h (i, d) (List.mem_cons_self _ _))]
    rw [ih (fun p hp => h p (List.mem_cons_of_mem _ hp))]

theorem setVolumeFirst_first_match (pre post : List (Nat × Decoder V))
    (id : Nat) (d : Decoder V) (volume : V) (h : ∀ p ∈ pre, p.1 ≠ id) :
    setVolumeFirst (pre ++ (id, d) :: post) id volume
      = pre ++ (id, d.set_volume volume) :: post := by
  induction pre with
  | nil => simp [setVolumeFirst]
  | cons q rest ih =>
    obtain ⟨i, dq⟩ := q
    simp only [List.cons_append, setVolumeFirst, List.append_eq]
    rw [if_neg (h (i, dq) (List.mem_cons_self _ _))]
    rw [ih (fun p hp => h p (List.mem_cons_of_mem _ hp))]

/-- Claim C6: one loop iteration applies a received command as follows —
`Play(id, decoder)` appends the pair to the registry; `Stop(id)` removes
every entry whose id matches, a silent no-op (registry unchanged, no error)
when none match; `SetVolume(id, v)` applies `v` to the (first) matching
entry and is a silent no-op when none match. -/
theorem C6_apply_command (sounds : List (Nat × Decoder V)) (id : Nat)
    (decoder : Decoder V) (volume : V) :
    applyCommand sounds (Command.Play id decoder) = sounds ++ [(id, decoder)]
  ∧ applyCommand sounds (Command.Stop id) = sounds.filter (fun p => p.1 != id)
  ∧ ((∀ p ∈ sounds, p.1 ≠ id) → applyCommand sounds (Command.Stop id) = sounds)
  ∧ ((∀ p ∈ sounds, p.1 ≠ id) →
      applyCommand sounds (Command.SetVolume id volume) = sounds)
  ∧ (∀ pre d post, sounds = pre ++ (id, d) :: post → (∀ p ∈ pre, p.1 ≠ id) →
      applyCommand sounds (Command.SetVolume id volume)
        = pre ++ (id, d.set_volume volume) :: post) := by
  refine ⟨rfl, rfl, ?_, ?_, ?_⟩
  · intro h
    apply List.filter_eq_self.mpr
    intro p hp
    simpa using h p hp
  · intro h
    exact setVolumeFirst_no_match sounds id volume h
  · intro pre d post hs hpre
    rw [show applyCommand sounds (Command.SetVolume id volume)
          = setVolumeFirst sounds id volume from rfl, hs]
    exact setVolumeFirst_first_match pre post id d volume hpre

theorem C6_witness :
    applyCommand [(1, (⟨2, 100⟩ : Decoder Int)), (3, ⟨4, 200⟩)] (Command.Stop 7)
      = [(1, (⟨2, 100⟩ : Decoder Int)), (3, ⟨4, 200⟩)]
    ∧ applyCommand [(1, (⟨2, 100⟩ : Decoder Int)), (3, ⟨4, 200⟩)]
        (Command.SetVolume 3 9)
      = [(1, (⟨2, 100⟩ : Decoder Int))] ++ (3, Decoder.set_volume ⟨4, 200⟩ 9) :: [] :=
  ⟨(C6_apply_command [(1, (⟨2, 100⟩ : Decoder Int)), (3, ⟨4, 200⟩)] 7 ⟨0, 0⟩ 0).2.2.1
      (by decide),
   (C6_apply_command [(1, (⟨2, 100⟩ : Decoder Int)), (3, ⟨4, 200⟩)] 3 ⟨0, 0⟩ 9).2.2.2.2
      [(1, ⟨2, 100⟩)] ⟨4, 200⟩ [] rfl (by decide)⟩

theorem foldr_min_min (l : List Nat) (a b : Nat) :
    l.foldr min (min a b) = min a (l.foldr min b) := by
  induction l with
  | nil => rfl
  | cons x xs ih =>
    simp only [List.foldr_cons, ih]
    rw [min_left_comm]

theorem foldl_min_eq_foldr (f : α → Nat) (l : List α) (a : Nat) :
    l.foldl (fun acc x => min acc (f x)) a = (l.map f).foldr min a := by
  induction l generalizing a with
  | nil => rfl
  | cons x xs ih =>
    simp only [List.foldl_cons, List.map_cons, List.foldr_cons]
    rw [ih (min a (f x)), min_comm a (f x), foldr_min_min]

theorem foldl_min_le_init (f : α → Nat) (l : List α) (a : Nat) :
    l.foldl (fun acc x => min acc (f x)) a ≤ a := by
  induction l generalizing a with
  | nil => exact le_refl a
  | cons x xs ih => exact le_trans (ih (min a (f x))) (min_le_left _ _)

theorem sleep_formula (d n : Nat) (hdn : d ≤ n + 10000000) :
    (if 0 ≤ (d : Int) - (n : Int) - 500000
     then some ((((d : Int) - (n : Int) - 500000) / 1000000).toNat % 4294967296)
     else none)
      = (if n + 500000 ≤ d then some ((d - (n + 500000)) / 1000000) else none) := by
  by_cases hc : n + 500000 ≤ d
  · rw [if_pos hc, if_pos (by omega)]
    congr 1
    have h1 : (d : Int) - (n : Int) - 500000 = ((d - (n + 500000) : Nat) : Int) := by
      omega
    rw [h1]
    have h2 : (((d - (n + 500000) : Nat) : Int) / (1000000 : Int)).toNat
        = (d - (n + 500000)) / 1000000 := by
      norm_cast
    rw [h2]
    apply Nat.mod_eq_of_lt
    apply Nat.div_lt_of_lt_mul
    omega
  · rw [if_neg hc, if_neg (by omega)]

/-- Claim C7: in one engine-loop iteration the next wake deadline is the
minimum of (now + the default 10 ms interval) and, for every registry entry,
the duration its decode step returned added to the time read right after
that step; the loop then requests a sleep of (deadline − now − the safety
margin), skipped rather than performed when that is negative, rounded down
to whole milliseconds — the sub-millisecond remainder is simply dropped and
no state accumulates it. The hypothesis says the clock is monotone in the
call index (as a real clock is), which also makes the `u32` cast of the
millisecond count exact. -/
theorem C7_deadline_and_sleep (t : Nat → Nat) (sounds : List (Nat × Decoder V))
    (cmd : Option (Command V)) (hmono : ∀ i j, i ≤ j → t i ≤ t j) :
    (backgroundIter t sounds cmd).1 = pollCommand sounds cmd
  ∧ (backgroundIter t sounds cmd).2.1
      = ((((pollCommand sounds cmd).map (fun p => p.2.write)).enum).map
          (fun p => t (p.1 + 1) + p.2)).foldr min (t 0 + 10000000)
  ∧ (backgroundIter t sounds cmd).2.2
      = (if t ((pollCommand sounds cmd).length + 1) + 500000
            ≤ (backgroundIter t sounds cmd).2.1
         then some (((backgroundIter t sounds cmd).2.1
                      - (t ((pollCommand sounds cmd).length + 1) + 500000)) / 1000000)
         else none) := by
  refine ⟨rfl, ?_, ?_⟩
  · simp only [backgroundIter, backgroundDeadline]
    exact foldl_min_eq_foldr _ _ _
  · have hinit : backgroundDeadline t
        ((pollCommand sounds cmd).map (fun p => p.2.write)) ≤ t 0 + 10000000 := by
      unfold backgroundDeadline
      exact foldl_min_le_init _ _ _
    have ht0 : t 0 ≤ t (((pollCommand sounds cmd).map (fun p => p.2.write)).length + 1) :=
      hmono 0 _ (Nat.zero_le _)
    simp only [backgroundIter, List.length_map]
    apply sleep_formula
    simp only [List.length_map] at ht0
    omega

theorem C7_witness :
    (backgroundIter (fun i => 1000000 * i)
        [(1, (⟨0, 3000000⟩ : Decoder Int))] none).2.2 = some 1 :=
  ((C7_deadline_and_sleep (fun i => 1000000 * i)
      [(1, (⟨0, 3000000⟩ : Decoder Int))] none
      (fun _ _ h => Nat.mul_le_mul_left 1000000 h)).2.2).trans (by decide)
